import Mathlib

/-!
Verification development for the apod-wallpaper repository.

The acquisition and desktop-backend code of the repository is shallowly
embedded below. Calendar dates (chrono NaiveDate values) are represented by
their day number (an Int, days since 1970-01-01); chrono's date comparison
and day-duration arithmetic coincide with Int comparison and addition on
this representation. Filesystem folders are represented by the list of file
names they contain, HTTP responses by a status code plus the parsed JSON
body, and process-level effects (network requests, file writes, panics) are
made explicit in return values.
-/

namespace Apod

/-! ### Calendar dates

Day-number conversion functions (Hinnant's civil-calendar algorithms),
used to model chrono NaiveDate formatting and parsing with format
string "%Y-%m-%d". -/

/-- Gregorian leap-year test. -/
def isLeapYear (y : Int) : Bool :=
  (y.emod 4 = 0 && y.emod 100 ≠ 0) || y.emod 400 = 0

/-- Number of days in month m (1-12) of year y. -/
def daysInMonth (y : Int) (m : Nat) : Nat :=
  if m = 2 then (if isLeapYear y then 29 else 28)
  else if m = 4 || m = 6 || m = 9 || m = 11 then 30
  else 31

/-- Day number (days since 1970-01-01) of the civil date y-m-d. -/
def daysFromCivil (y : Int) (m d : Nat) : Int :=
  let y' := if m ≤ 2 then y - 1 else y
  let era := y'.fdiv 400
  let yoe := (y' - era * 400).toNat
  let mp := if m > 2 then m - 3 else m + 9
  let doy := (153 * mp + 2) / 5 + d - 1
  let doe := yoe * 365 + yoe / 4 - yoe / 100 + doy
  era * 146097 + (doe : Int) - 719468

/-- Civil date (year, month, day) of a day number. -/
def civilFromDays (z0 : Int) : Int × Nat × Nat :=
  let z := z0 + 719468
  let era := z.fdiv 146097
  let doe := (z - era * 146097).toNat
  let yoe := (doe - doe / 1460 + doe / 36524 - doe / 146096) / 365
  let y := (yoe : Int) + era * 400
  let doy := doe - (365 * yoe + yoe / 4 - yoe / 100)
  let mp := (5 * doy + 2) / 153
  let d := doy - (153 * mp + 2) / 5 + 1
  let m := if mp < 10 then mp + 3 else mp - 9
  (if m ≤ 2 then y + 1 else y, m, d)

/-- Decimal rendering of n left-padded with zeros to the given width. -/
def padNat (width : Nat) (n : Nat) : String :=
  let s := toString n
  if s.length < width then String.mk (List.replicate (width - s.length) '0') ++ s else s

/-- Rendering of a day number in the YYYY-MM-DD shape produced by
formatting a chrono NaiveDate with "%Y-%m-%d". -/
def formatYMD (z : Int) : String :=
  let c := civilFromDays z
  let y := c.1
  let ys := if y < 0 then "-" ++ padNat 4 (-y).toNat else padNat 4 y.toNat
  ys ++ "-" ++ padNat 2 c.2.1 ++ "-" ++ padNat 2 c.2.2

/-- Value of a run of decimal digit characters. -/
def digitsVal (l : List Char) : Nat :=
  l.foldl (fun a c => a * 10 + (c.toNat - 48)) 0

/-- chrono scan::number: consumes at least minD and at most maxD leading
decimal digits and yields their value together with the rest of the
input; none when fewer than minD digits are present. -/
def scanNumber (l : List Char) (minD maxD : Nat) : Option (Nat × List Char) :=
  let ds := (l.takeWhile Char.isDigit).take maxD
  if ds.length < minD then none
  else some (digitsVal ds, l.drop ds.length)

/-- Parsing of a date string into a day number, modelling chrono's
NaiveDate parse_from_str with format "%Y-%m-%d" including its leniency:
whitespace is trimmed before each numeric field (ASCII whitespace here,
as in strToLower), the year takes one to four digits or an explicit
plus or minus sign followed by arbitrarily many digits, month and day
take one or two digits each, the two separating dashes are literal and
immediate, the input must be fully consumed, the year must lie in
NaiveDate's representable range and the calendar date must be valid;
returns none exactly when chrono's parse (or the date construction it
performs) fails. -/
def parseYMD (s : String) : Option Int := do
  let l0 := s.data.dropWhile Char.isWhitespace
  let (y, l1) ← (match l0 with
    | '-' :: rest => (scanNumber rest 1 rest.length).map (fun p => (-(p.1 : Int), p.2))
    | '+' :: rest => (scanNumber rest 1 rest.length).map (fun p => ((p.1 : Int), p.2))
    | _ => (scanNumber l0 1 4).map (fun p => ((p.1 : Int), p.2)))
  let l2 ← (match l1 with
    | '-' :: rest => some rest
    | _ => none)
  let (m, l3) ← scanNumber (l2.dropWhile Char.isWhitespace) 1 2
  let l4 ← (match l3 with
    | '-' :: rest => some rest
    | _ => none)
  let (d, l5) ← scanNumber (l4.dropWhile Char.isWhitespace) 1 2
  if l5 = [] ∧ -262144 ≤ y ∧ y ≤ 262143 ∧ 1 ≤ m ∧ m ≤ 12 ∧ 1 ≤ d ∧ d ≤ daysInMonth y m
  then some (daysFromCivil y m d)
  else none

/-! ### String helpers modelling Rust primitives -/

/-- Rust str starts_with: byte-prefix test, modelled on character lists. -/
def strStartsWith (s pre : String) : Bool :=
  pre.data.isPrefixOf s.data

/-- Rust str to_lowercase, modelled characterwise. -/
def strToLower (s : String) : String :=
  String.mk (s.data.map Char.toLower)

/-- Characters of l after its last occurrence of sep (all of l if absent). -/
def afterLastSep (sep : Char) (l : List Char) : List Char :=
  l.foldl (fun acc c => if c = sep then [] else acc ++ [c]) []

/-- Rust Path::extension on a path or URL string: the portion of the last
component after its last dot; none when the component has no dot or only a
leading dot. -/
def pathExtension (s : String) : Option String :=
  let fileName := afterLastSep '/' s.data
  let rev := fileName.reverse
  let extRev := rev.takeWhile (fun c => c ≠ '.')
  if extRev.length = rev.length then none
  else if rev.length - extRev.length - 1 = 0 then none
  else some (String.mk extRev.reverse)

/-! ### Error values

Embedding of the crate's Error enum (lib.rs). Message strings reproduce the
ones built in apod.rs and desktop code, so error identity is preserved. -/

/-- Embedding of the crate Error enum from lib.rs. -/
inductive AppError where
  | network
  | io
  | desktopEnv (msg : String)
  | config (msg : String)
  | api (msg : String)
deriving DecidableEq, Repr

/-- Message of the Error::Api raised on HTTP 403 in download_single_image. -/
def rateLimitMsg : String := "API rate limit exceeded or invalid API key"

/-- Message of the Error::Api raised on other non-success HTTP statuses in
download_single_image; carries the status code. -/
def remoteMsg (status : Nat) : String :=
  "Failed to fetch APOD data: HTTP " ++ toString status

/-- Message of the Error::Api raised on an unsupported image extension. -/
def unsupportedMsg (ext : String) : String := "Unsupported image format: " ++ ext

/-- Message of the Error::Api raised by download_specific_date on a date
string that fails to parse. -/
def invalidDateMsg (s : String) : String :=
  "Invalid date format: " ++ s ++ ". Use YYYY-MM-DD"

/-- Message of the Error::Api raised by download_date_range on a start date
string that fails to parse. -/
def invalidStartMsg (s : String) : String :=
  "Invalid start date format: " ++ s ++ ". Use YYYY-MM-DD"

/-- Message of the Error::Api raised by download_date_range on an end date
string that fails to parse. -/
def invalidEndMsg (s : String) : String :=
  "Invalid end date format: " ++ s ++ ". Use YYYY-MM-DD"

/-- Message of the Error::Api raised by download_date_range when the start
date is after the end date. -/
def invalidRangeMsg : String := "Start date must be before or equal to end date"

/-! ### Remote responses and call outcomes -/

/-- Embedding of the ApodResponse JSON structure from apod.rs. -/
structure ApodResponse where
  date : String
  explanation : String
  hd_url : Option String
  url : Option String
  title : String
  media_type : String
deriving DecidableEq, Repr

/-- A metadata-endpoint HTTP response: status code plus parsed JSON body
(the apod_data vector; for the non-random path the singleton vector built
from the single JSON object). -/
structure MetaResp where
  status : Nat
  body : List ApodResponse
deriving DecidableEq, Repr

/-- Outcome of running a piece of Rust code returning Result: a value, a
propagated error, or a panic that aborts the process. -/
inductive RunRes (α : Type) where
  | ok (a : α)
  | err (e : AppError)
  | panics
deriving DecidableEq, Repr

/-- Adds one to the count inside an ok outcome, leaving error and panic
outcomes unchanged. -/
def RunRes.bumpCount : RunRes Nat → RunRes Nat
  | .ok n => .ok (n + 1)
  | r => r

/-- reqwest StatusCode::is_success: status in 200..=299. -/
def isSuccessStatus (s : Nat) : Bool := 200 ≤ s && s ≤ 299

/-! ### RemoteImageFetcher: download_single_image

Embedding of ApodClient::download_single_image. The HTTP response and the
success of the follow-up image-bytes request are passed as parameters; the
returned pair is the function result together with the list of file names
written to the folder. The random flag selects between the count=1 request
(array body) and the date request (object body wrapped in a vector);
with the body already given as a vector it does not affect the result. -/

/-- Embedding of ApodClient::download_single_image from apod.rs.
Returns the Rust result (a panic outcome models the unwrap on a missing
url field) paired with the list of file names written. -/
def download_single_image (random : Bool) (resp : MetaResp) (imgOk : Bool) :
    RunRes (Option String) × List String :=
  if !(isSuccessStatus resp.status) then
    if resp.status = 403 then (.err (.api rateLimitMsg), [])
    else if resp.status = 404 then (.ok none, [])
    else (.err (.api (remoteMsg resp.status)), [])
  else
    match resp.body with
    | [] => (.ok none, [])
    | apod :: _ =>
      if apod.media_type ≠ "image" then (.ok none, [])
      else
        -- Rust: apod.hd_url.as_ref().unwrap_or(apod.url.as_ref().unwrap());
        -- the unwrap_or argument is evaluated eagerly, so a missing url
        -- panics even when hd_url is present.
        match apod.url with
        | none => (.panics, [])
        | some u =>
          let image_url := apod.hd_url.getD u
          let image_ext := strToLower ((pathExtension image_url).getD "jpg")
          if image_ext ≠ "jpg" ∧ image_ext ≠ "jpeg" ∧ image_ext ≠ "png" then
            (.err (.api (unsupportedMsg image_ext)), [])
          else
            let file_name := apod.date ++ "." ++ image_ext
            if imgOk then (.ok (some file_name), [file_name])
            else (.err .network, [])

/-! ### DateResolver -/

/-- Target-date computation of ApodClient::get_image: today (UTC) minus the
requested offset, with one extra day subtracted when the UTC hour is
before 5. -/
def getImageTargetDate (utcToday : Int) (utcHour : Nat) (date_offset : Option Nat) : Int :=
  let offset : Int := (date_offset.getD 0 : Nat)
  let offset := if utcHour < 5 then offset + 1 else offset
  utcToday - offset

/-- Anchor-date computation of ApodClient::download_range: today (local
time) rolled back one day when the UTC hour is before 5. -/
def downloadRangeAnchor (localToday : Int) (utcHour : Nat) : Int :=
  if utcHour < 5 then localToday - 1 else localToday

/-- Modelled from the spec: targetDate(now, offsetDays, cutoverHour=5)
subtracts offsetDays from today, where today rolls back one additional day
if the current hour is before the cutover hour 5. -/
def targetDateSpec (today : Int) (offsetDays : Nat) (hour : Nat) : Int :=
  (today - (if hour < 5 then 1 else 0)) - offsetDays

/-! ### LocalCacheIndex -/

/-- Embedding of ApodClient::get_local_image_for_date: the first folder
entry whose file name starts with the date formatted as YYYY-MM-DD. -/
def get_local_image_for_date (folder : List String) (date : Int) : Option String :=
  folder.find? (fun name => strStartsWith name (formatYMD date))

/-- Folder entries collected by ApodClient::get_random_local_image: those
whose path extension equals the literal string jpg. -/
def jpgImages (folder : List String) : List String :=
  folder.filter (fun p => pathExtension p = some "jpg")

/-- Embedding of ApodClient::get_random_local_image; the random choice of
the rand crate (uniform over indices of the collected vector) is modelled
by the pick parameter taken modulo the number of candidates. -/
def get_random_local_image (folder : List String) (pick : Nat) : Option String :=
  let images := jpgImages folder
  if images.isEmpty then none
  else images[pick % images.length]?

/-! ### AcquisitionOrchestrator -/

/-- Embedding of ApodClient::get_image. The second component of the result
records whether a network request was issued. -/
def get_image (folder : List String) (random : Bool) (date_offset : Option Nat)
    (utcToday : Int) (utcHour : Nat) (resp : MetaResp) (imgOk : Bool) (pick : Nat) :
    RunRes (Option String) × Bool :=
  if random then
    match get_random_local_image folder pick with
    | some p => (.ok (some p), false)
    | none => ((download_single_image random resp imgOk).1, true)
  else
    match get_local_image_for_date folder (getImageTargetDate utcToday utcHour date_offset) with
    | some p => (.ok (some p), false)
    | none => ((download_single_image random resp imgOk).1, true)

/-- Embedding of ApodClient::download_specific_date. The result carries
the Rust return value, a flag recording whether a network request was
issued, and the folder contents afterwards. -/
def download_specific_date (folder : List String) (dateStr : String)
    (resp : MetaResp) (imgOk : Bool) : RunRes Nat × Bool × List String :=
  match parseYMD dateStr with
  | none => (.err (.api (invalidDateMsg dateStr)), false, folder)
  | some d =>
    if (get_local_image_for_date folder d).isSome then (.ok 0, false, folder)
    else
      match download_single_image false resp imgOk with
      | (.panics, _) => (.panics, true, folder)
      | (.ok (some _), w) => (.ok 1, true, folder ++ w)
      | (.ok none, w) => (.ok 0, true, folder ++ w)
      | (.err e, w) => (.err e, true, folder ++ w)

/-- The download_single_image call made by the range loops for date d:
random is false and the oracles give the metadata response and the success
of the image-bytes request for that date. -/
def dlAt (resp : Int → MetaResp) (imgOk : Int → Bool) (d : Int) :
    RunRes (Option String) × List String :=
  download_single_image false (resp d) (imgOk d)

/-- True when a download_single_image outcome is a newly downloaded image
(Ok(Some) in the Rust code, the case that increments the counters). -/
def isNewDownload (r : RunRes (Option String) × List String) : Bool :=
  match r.1 with
  | .ok (some _) => true
  | _ => false

/-- Observable outcome of a range-download loop: the Rust return value,
the dates visited by loop iterations in order, the dates for which a
metadata network request was issued, and the final folder contents. -/
structure LoopOut where
  result : RunRes Nat
  attempts : List Int
  net : List Int
  folder : List String
deriving DecidableEq, Repr

/-- Loop body of ApodClient::download_range: for day_offset in 0..days the
date start - (idx + day_offset) is looked up in the folder and, when
absent, downloaded; per-date errors are swallowed, a panic aborts. -/
def rangeGo (resp : Int → MetaResp) (imgOk : Int → Bool) (start : Int)
    (folder : List String) (idx : Nat) : Nat → LoopOut
  | 0 => ⟨.ok 0, [], [], folder⟩
  | k + 1 =>
    let d := start - (idx : Int)
    if (get_local_image_for_date folder d).isSome then
      let r := rangeGo resp imgOk start folder (idx + 1) k
      ⟨r.result, d :: r.attempts, r.net, r.folder⟩
    else
      match dlAt resp imgOk d with
      | (.panics, _) => ⟨.panics, [d], [d], folder⟩
      | (.ok (some _), w) =>
        let r := rangeGo resp imgOk start (folder ++ w) (idx + 1) k
        ⟨r.result.bumpCount, d :: r.attempts, d :: r.net, r.folder⟩
      | (.ok none, w) =>
        let r := rangeGo resp imgOk start (folder ++ w) (idx + 1) k
        ⟨r.result, d :: r.attempts, d :: r.net, r.folder⟩
      | (.err _, w) =>
        let r := rangeGo resp imgOk start (folder ++ w) (idx + 1) k
        ⟨r.result, d :: r.attempts, d :: r.net, r.folder⟩

/-- Embedding of ApodClient::download_range: anchors at today rolled back
by the 5 o'clock cutover and walks days dates backward. -/
def download_range (resp : Int → MetaResp) (imgOk : Int → Bool)
    (folder : List String) (days : Nat) (localToday : Int) (utcHour : Nat) : LoopOut :=
  rangeGo resp imgOk (downloadRangeAnchor localToday utcHour) folder 0 days

/-- Loop of ApodClient::download_date_range: while current ≤ endD the date
current is looked up and, when absent, downloaded; per-date errors are
swallowed, a panic aborts; current then advances by one day. -/
def spanGo (resp : Int → MetaResp) (imgOk : Int → Bool) (endD : Int)
    (current : Int) (folder : List String) : LoopOut :=
  if h : current ≤ endD then
    if (get_local_image_for_date folder current).isSome then
      let r := spanGo resp imgOk endD (current + 1) folder
      ⟨r.result, current :: r.attempts, r.net, r.folder⟩
    else
      match dlAt resp imgOk current with
      | (.panics, _) => ⟨.panics, [current], [current], folder⟩
      | (.ok (some _), w) =>
        let r := spanGo resp imgOk endD (current + 1) (folder ++ w)
        ⟨r.result.bumpCount, current :: r.attempts, current :: r.net, r.folder⟩
      | (.ok none, w) =>
        let r := spanGo resp imgOk endD (current + 1) (folder ++ w)
        ⟨r.result, current :: r.attempts, current :: r.net, r.folder⟩
      | (.err _, w) =>
        let r := spanGo resp imgOk endD (current + 1) (folder ++ w)
        ⟨r.result, current :: r.attempts, current :: r.net, r.folder⟩
  else ⟨.ok 0, [], [], folder⟩
termination_by (endD + 1 - current).toNat
decreasing_by all_goals (simp_wf; omega)

/-- Embedding of ApodClient::download_date_range: parses the two date
strings, rejects an inverted range, then walks the closed interval
ascending. -/
def download_date_range (resp : Int → MetaResp) (imgOk : Int → Bool)
    (folder : List String) (startStr endStr : String) : LoopOut :=
  match parseYMD startStr with
  | none => ⟨.err (.api (invalidStartMsg startStr)), [], [], folder⟩
  | some s =>
    match parseYMD endStr with
    | none => ⟨.err (.api (invalidEndMsg endStr)), [], [], folder⟩
    | some e =>
      if s > e then ⟨.err (.api invalidRangeMsg), [], [], folder⟩
      else spanGo resp imgOk e s folder

end Apod

namespace Desktop

open Apod (AppError strToLower)

/-! ### Hyprland backend: set_wallpaper tool fallback -/

/-- Message of the Error::DesktopEnv returned by HyprlandManager's
set_wallpaper when every available tool has failed or none is present. -/
def hyprSetFailMsg : String :=
  "Failed to set wallpaper. No supported wallpaper tool (hyprpaper, swww, or swaybg) is available"

/-- Embedding of the WallpaperTools capability set probed by the Hyprland
backend (hyprpaper, swww, swaybg presence). -/
structure HyprTools where
  has_hyprpaper : Bool
  has_swww : Bool
  has_swaybg : Bool
deriving DecidableEq, Repr

/-- Outcome of invoking one wallpaper tool through the shell: the command
ran and exited successfully, it ran and exited with failure, or the shell
process itself could not be spawned (the Rust output()? propagates the
latter as an Io error). -/
inductive ToolRun where
  | success
  | failExit
  | spawnErr
deriving DecidableEq, Repr

/-- Third step of HyprlandManager::set_wallpaper: the swaybg attempt (a
plain spawn whose failure falls through to the final error) followed by
the terminal DesktopEnv error. -/
def hyprTrySwaybg (t : HyprTools) (sb : Bool) : Except AppError Unit :=
  if t.has_swaybg then
    if sb then .ok () else .error (.desktopEnv hyprSetFailMsg)
  else .error (.desktopEnv hyprSetFailMsg)

/-- Second step of HyprlandManager::set_wallpaper: the swww attempt. -/
def hyprTrySwww (t : HyprTools) (sw : ToolRun) (sb : Bool) : Except AppError Unit :=
  if t.has_swww then
    match sw with
    | .spawnErr => .error .io
    | .success => .ok ()
    | .failExit => hyprTrySwaybg t sb
  else hyprTrySwaybg t sb

/-- Embedding of HyprlandManager::set_wallpaper from desktop/hyprland.rs:
tries hyprpaper, then swww, then swaybg, returning at the first success;
hp and sw are the outcomes of the two shell invocations and sb tells
whether the swaybg spawn succeeds. -/
def hyprSetWallpaper (t : HyprTools) (hp sw : ToolRun) (sb : Bool) : Except AppError Unit :=
  if t.has_hyprpaper then
    match hp with
    | .spawnErr => .error .io
    | .success => .ok ()
    | .failExit => hyprTrySwww t sw sb
  else hyprTrySwww t sw sb

/-- Modelled from the spec: the ordered fallback over the capability set,
which stops at the first success and signals BackendFailure only once
every available tool has been exhausted. -/
def toolChainSpec : List ToolRun → Except AppError Unit
  | [] => .error (.desktopEnv hyprSetFailMsg)
  | .success :: _ => .ok ()
  | .spawnErr :: _ => .error .io
  | .failExit :: rest => toolChainSpec rest

/-- Outcomes of the available tools in the fixed priority order hyprpaper,
swww, swaybg (a failed swaybg spawn behaves as a failed attempt). -/
def availRuns (t : HyprTools) (hp sw : ToolRun) (sb : Bool) : List ToolRun :=
  (if t.has_hyprpaper then [hp] else [])
    ++ (if t.has_swww then [sw] else [])
    ++ (if t.has_swaybg then [if sb then .success else .failExit] else [])

/-! ### Backend selection -/

/-- The backend variant selected by get_wallpaper_manager. -/
inductive ManagerChoice where
  | hyprland
  | plasma
deriving DecidableEq, Repr

/-- Result of backend construction or selection: a manager, a propagated
error, or a constructor panic. -/
inductive SelectRes where
  | ok (m : ManagerChoice)
  | err (e : AppError)
  | panics
deriving DecidableEq, Repr

/-- Environment facts read by get_wallpaper_manager and the is_available
probes: the XDG_CURRENT_DESKTOP value, presence of the
HYPRLAND_INSTANCE_SIGNATURE and KDE_SESSION_VERSION variables, and whether
a hyprctl process can be spawned. -/
structure SelEnv where
  xdgCurrentDesktop : Option String
  hyprlandSignature : Bool
  kdeSessionVersion : Bool
  hyprctlSpawns : Bool
deriving DecidableEq, Repr

/-- Embedding of HyprlandManager::is_available: the instance signature
variable is set or a hyprctl version process can be spawned. -/
def hyprlandIsAvailable (e : SelEnv) : Bool :=
  e.hyprlandSignature || e.hyprctlSpawns

/-- Embedding of PlasmaManager::is_available. -/
def plasmaIsAvailable (e : SelEnv) : Bool := e.kdeSessionVersion

/-- Embedding of HyprlandManager::new: panics unless at least one of
hyprpaper, swww, swaybg is present. -/
def mkHyprlandManager (t : HyprTools) : SelectRes :=
  if t.has_hyprpaper || t.has_swww || t.has_swaybg then .ok .hyprland else .panics

/-- Embedding of PlasmaManager::new: panics unless qdbus is present. -/
def mkPlasmaManager (hasQdbus : Bool) : SelectRes :=
  if hasQdbus then .ok .plasma else .panics

/-- Message of the Error::DesktopEnv returned by get_wallpaper_manager
when no supported desktop environment is found. -/
def noDesktopMsg : String := "No supported desktop environment found"

/-- Embedding of get_wallpaper_manager from desktop/mod.rs. -/
def get_wallpaper_manager (e : SelEnv) (t : HyprTools) (hasQdbus : Bool) : SelectRes :=
  let desktop := strToLower (e.xdgCurrentDesktop.getD "")
  if desktop = "hyprland" then mkHyprlandManager t
  else if desktop = "kde" || desktop = "plasma" then mkPlasmaManager hasQdbus
  else if hyprlandIsAvailable e then mkHyprlandManager t
  else if plasmaIsAvailable e then mkPlasmaManager hasQdbus
  else .err (.desktopEnv noDesktopMsg)

end Desktop

deriving instance DecidableEq for Except

/-! ## Shared helper lemmas -/

open Apod Desktop

/-- A list is a Boolean prefix of itself followed by anything. -/
theorem isPrefixOf_append_self {α : Type} [BEq α] [LawfulBEq α] (l t : List α) :
    l.isPrefixOf (l ++ t) = true := by
  induction l with
  | nil => simp
  | cons a as ih => simp [List.isPrefixOf_cons₂, ih]

/-- Appending to a string preserves it as a starts_with prefix. -/
theorem strStartsWith_append (s t : String) : strStartsWith (s ++ t) s = true := by
  unfold strStartsWith
  rw [String.data_append]
  exact isPrefixOf_append_self s.data t.data

/-- Mapping over a range one longer peels off the image of zero. -/
theorem map_range_succ (k : Nat) (g : Nat → Int) :
    (List.range (k + 1)).map g = g 0 :: (List.range k).map (fun t => g (t + 1)) := by
  rw [List.range_succ_eq_map, List.map_cons, List.map_map]
  rfl

/-- Filtering then mapping over a range one longer peels off index zero. -/
theorem filter_map_range_succ (k : Nat) (p : Nat → Bool) (g : Nat → Int) :
    ((List.range (k + 1)).filter p).map g
      = (if p 0 then [g 0] else [])
          ++ ((List.range k).filter (fun t => p (t + 1))).map (fun t => g (t + 1)) := by
  rw [List.range_succ_eq_map, List.filter_cons, List.filter_map]
  by_cases h : p 0 <;> simp [h, List.map_map] <;> rfl

/-- Counting over a range one longer splits off index zero. -/
theorem countP_range_succ (k : Nat) (p : Nat → Bool) :
    (List.range (k + 1)).countP p
      = (List.range k).countP (fun t => p (t + 1)) + (if p 0 then 1 else 0) := by
  rw [List.range_succ_eq_map, List.countP_cons, List.countP_map]
  rfl

/-! ## Claim theorems -/

/-- C3: both date-producing entry points compute the anchor date as today
minus the offset, rolled back one additional day exactly when the UTC hour
is before 5; the single-image target with offset k coincides with the
k-th date of the range walk, so both apply the same mechanism. -/
theorem anchor_cutover_rule :
    ∀ (today : Int) (hour : Nat) (off k : Nat),
      getImageTargetDate today hour (some off) = targetDateSpec today off hour
      ∧ getImageTargetDate today hour none = targetDateSpec today 0 hour
      ∧ downloadRangeAnchor today hour - (k : Int) = targetDateSpec today k hour
      ∧ getImageTargetDate today hour (some k) = downloadRangeAnchor today hour - (k : Int) := by
  intro today hour off k
  simp only [getImageTargetDate, targetDateSpec, downloadRangeAnchor, Option.getD_some,
    Option.getD_none]
  split_ifs <;> exact ⟨by omega, by omega, by omega, by omega⟩

/-- C2: download_single_image maps HTTP 403 to the rate-limit Api error,
404 to a successful None, any other non-2xx status to the Api error
carrying the status, and a 2xx response whose first record is not of image
media kind to a successful None; in all four cases no file is written. -/
theorem fetch_status_and_media_mapping :
    ∀ (random : Bool) (resp : MetaResp) (imgOk : Bool),
      (resp.status = 403 →
        download_single_image random resp imgOk = (.err (.api rateLimitMsg), []))
      ∧ (resp.status = 404 →
        download_single_image random resp imgOk = (.ok none, []))
      ∧ (isSuccessStatus resp.status = false → resp.status ≠ 403 → resp.status ≠ 404 →
        download_single_image random resp imgOk = (.err (.api (remoteMsg resp.status)), []))
      ∧ (isSuccessStatus resp.status = true →
        (∀ a ∈ resp.body.head?, a.media_type ≠ "image") →
        download_single_image random resp imgOk = (.ok none, [])) := by
  intro random resp imgOk
  obtain ⟨st, body⟩ := resp
  refine ⟨?_, ?_, ?_, ?_⟩
  · intro h
    subst h
    rfl
  · intro h
    subst h
    rfl
  · intro hs h403 h404
    simp only [download_single_image, hs, Bool.not_false, if_true]
    simp [h403, h404]
  · intro hs hm
    simp only [download_single_image, hs, Bool.not_true, if_false]
    cases body with
    | nil => rfl
    | cons a rest =>
      have : a.media_type ≠ "image" := hm a (by simp)
      simp [this]

/-- C10: a successful metadata response of image media kind whose url
field is absent makes download_single_image panic (the unwrap_or argument
is evaluated eagerly), even when hdurl is present, and no error value is
returned. -/
theorem missing_url_panics :
    ∀ (random : Bool) (status : Nat) (d e t : String) (hd : Option String)
      (rest : List ApodResponse) (imgOk : Bool),
      isSuccessStatus status = true →
      download_single_image random ⟨status, ⟨d, e, hd, none, t, "image"⟩ :: rest⟩ imgOk
        = (.panics, []) := by
  intro random status d e t hd rest imgOk hs
  simp [download_single_image, hs]

/-- Witness for the missing-url panic at a concrete 200 response that does
carry an hdurl field. -/
theorem missing_url_panics_witness :
    download_single_image false
      ⟨200, [⟨"2024-01-10", "x", some "https://a/b.jpg", none, "t", "image"⟩]⟩ true
      = (.panics, []) :=
  missing_url_panics false 200 "2024-01-10" "x" "t" (some "https://a/b.jpg") [] true (by decide)

/-- C8: a file written under the name date.ext, with the date formatted as
YYYY-MM-DD, is found by the next get_local_image_for_date lookup in the
same folder for that date. -/
theorem cache_roundtrip :
    ∀ (folder : List String) (z : Int) (ext : String),
      (get_local_image_for_date (folder ++ [formatYMD z ++ "." ++ ext]) z).isSome = true := by
  intro folder z ext
  unfold get_local_image_for_date
  rw [List.find?_append, Option.isSome_or]
  have hpre : strStartsWith (formatYMD z ++ "." ++ ext) (formatYMD z) = true := by
    have := strStartsWith_append (formatYMD z) ("." ++ ext)
    rwa [← String.append_assoc] at this
  simp [List.find?_cons, hpre]

/-- Witness for the fetch status mapping: at status 403 the rate-limit
error, at 404 a successful None, at 500 the remote error carrying the
status, and at 200 with a video record a successful None — never writing
a file. -/
theorem fetch_status_and_media_mapping_witness :
    download_single_image false ⟨403, []⟩ true = (.err (.api rateLimitMsg), [])
    ∧ download_single_image false ⟨404, []⟩ true = (.ok none, [])
    ∧ download_single_image false ⟨500, []⟩ true = (.err (.api (remoteMsg 500)), [])
    ∧ download_single_image false
        ⟨200, [⟨"2024-01-10", "x", none, some "https://a/b.mp4", "t", "video"⟩]⟩ true
        = (.ok none, []) :=
  ⟨(fetch_status_and_media_mapping false ⟨403, []⟩ true).1 rfl,
   (fetch_status_and_media_mapping false ⟨404, []⟩ true).2.1 rfl,
   (fetch_status_and_media_mapping false ⟨500, []⟩ true).2.2.1 (by decide) (by decide) (by decide),
   (fetch_status_and_media_mapping false
      ⟨200, [⟨"2024-01-10", "x", none, some "https://a/b.mp4", "t", "video"⟩]⟩ true).2.2.2
      (by decide) (by decide)⟩

/-- C9: get_random_local_image collects exactly the folder entries whose
extension is the literal string jpg, returns a pick among them with every
candidate reachable by some random draw, and returns None when no such
entry exists (in particular for an empty folder). -/
theorem find_random_behaviour :
    ∀ (folder : List String) (pick : Nat),
      (∀ x, x ∈ jpgImages folder ↔ x ∈ folder ∧ pathExtension x = some "jpg")
      ∧ (jpgImages folder = [] → get_random_local_image folder pick = none)
      ∧ (jpgImages folder ≠ [] →
          ∃ x ∈ jpgImages folder, get_random_local_image folder pick = some x)
      ∧ (∀ x ∈ jpgImages folder, ∃ p, get_random_local_image folder p = some x) := by
  intro folder pick
  refine ⟨?_, ?_, ?_, ?_⟩
  · intro x
    simp [jpgImages, List.mem_filter]
  · intro h
    simp [get_random_local_image, h]
  · intro h
    have hlen : 0 < (jpgImages folder).length := List.length_pos.2 h
    have hidx : pick % (jpgImages folder).length < (jpgImages folder).length :=
      Nat.mod_lt _ hlen
    refine ⟨(jpgImages folder)[pick % (jpgImages folder).length], ?_, ?_⟩
    · exact List.getElem_mem hidx
    · simp [get_random_local_image, List.isEmpty_iff, h, List.getElem?_eq_getElem hidx]
  · intro x hx
    obtain ⟨n, hn⟩ := List.mem_iff_getElem?.1 hx
    have hlt : n < (jpgImages folder).length := (List.getElem?_eq_some_iff.1 hn).1
    refine ⟨n, ?_⟩
    have hne : jpgImages folder ≠ [] := by
      intro hcon
      rw [hcon] at hx
      exact absurd hx (List.not_mem_nil x)
    simp [get_random_local_image, List.isEmpty_iff, hne, Nat.mod_eq_of_lt hlt, hn]

/-- Witness for the random-pick behaviour on a folder holding one jpg,
one png and one upper-case JPG entry, and a None result for a folder with
no jpg entry. -/
theorem find_random_behaviour_witness :
    get_random_local_image ["b.png"] 0 = none
    ∧ (∃ x ∈ jpgImages ["a.jpg", "b.png", "c.JPG"],
        get_random_local_image ["a.jpg", "b.png", "c.JPG"] 5 = some x) :=
  ⟨(find_random_behaviour ["b.png"] 0).2.1 (by decide),
   (find_random_behaviour ["a.jpg", "b.png", "c.JPG"] 5).2.2.1 (by decide)⟩

/-- C6: the Hyprland set_wallpaper attempts the available tools in the
fixed priority order hyprpaper, swww, swaybg (the outcome chain over the
capability set), succeeds at the first tool whose attempt succeeds, and
returns the backend-failure DesktopEnv error exactly when every available
tool in the capability set has failed or none is available. -/
theorem hyprland_set_wallpaper_fallback :
    ∀ (t : HyprTools) (hp sw : ToolRun) (sb : Bool),
      hyprSetWallpaper t hp sw sb = toolChainSpec (availRuns t hp sw sb)
      ∧ (hyprSetWallpaper t hp sw sb = .error (.desktopEnv hyprSetFailMsg)
          ↔ ∀ r ∈ availRuns t hp sw sb, r = .failExit)
      ∧ (hyprSetWallpaper t hp sw sb = .ok ()
          ↔ ((availRuns t hp sw sb).dropWhile (fun r => r == .failExit)).head?
              = some .success) := by
  intro t hp sw sb
  obtain ⟨a, b, c⟩ := t
  cases a <;> cases b <;> cases c <;> cases hp <;> cases sw <;> cases sb <;> decide

/-- C7: get_wallpaper_manager maps the lower-cased desktop hint hyprland
to the Hyprland variant and kde or plasma to the Plasma variant; with an
unrecognized or absent hint it probes Hyprland first and Plasma second;
and when neither probe succeeds — in particular when zero backend tools
are present and no desktop environment variable is set — it returns the
no-supported-desktop error before any wallpaper operation. -/
theorem backend_selection :
    ∀ (e : SelEnv) (t : HyprTools) (q : Bool),
      (strToLower (e.xdgCurrentDesktop.getD "") = "hyprland" →
        get_wallpaper_manager e t q = mkHyprlandManager t)
      ∧ (strToLower (e.xdgCurrentDesktop.getD "") = "kde"
          ∨ strToLower (e.xdgCurrentDesktop.getD "") = "plasma" →
        get_wallpaper_manager e t q = mkPlasmaManager q)
      ∧ (¬ (strToLower (e.xdgCurrentDesktop.getD "") = "hyprland"
            ∨ strToLower (e.xdgCurrentDesktop.getD "") = "kde"
            ∨ strToLower (e.xdgCurrentDesktop.getD "") = "plasma") →
          (hyprlandIsAvailable e = true →
            get_wallpaper_manager e t q = mkHyprlandManager t)
          ∧ (hyprlandIsAvailable e = false → plasmaIsAvailable e = true →
            get_wallpaper_manager e t q = mkPlasmaManager q)
          ∧ (hyprlandIsAvailable e = false → plasmaIsAvailable e = false →
            get_wallpaper_manager e t q = .err (.desktopEnv noDesktopMsg)))
      ∧ (¬ (strToLower (e.xdgCurrentDesktop.getD "") = "hyprland"
            ∨ strToLower (e.xdgCurrentDesktop.getD "") = "kde"
            ∨ strToLower (e.xdgCurrentDesktop.getD "") = "plasma") →
          t = ⟨false, false, false⟩ → q = false →
          e.hyprlandSignature = false → e.hyprctlSpawns = false →
          e.kdeSessionVersion = false →
          get_wallpaper_manager e t q = .err (.desktopEnv noDesktopMsg)) := by
  intro e t q
  refine ⟨?_, ?_, ?_, ?_⟩
  · intro h
    simp [get_wallpaper_manager, h]
  · intro h
    rcases h with h | h <;> simp [get_wallpaper_manager, h]
  · intro h
    push_neg at h
    obtain ⟨h1, h2, h3⟩ := h
    refine ⟨?_, ?_, ?_⟩
    · intro ha
      simp [get_wallpaper_manager, h1, h2, h3, ha]
    · intro ha hb
      simp [get_wallpaper_manager, h1, h2, h3, ha, hb]
    · intro ha hb
      simp [get_wallpaper_manager, h1, h2, h3, ha, hb]
  · intro h ht hq hsig hctl hkde
    push_neg at h
    obtain ⟨h1, h2, h3⟩ := h
    subst ht hq
    simp [get_wallpaper_manager, h1, h2, h3, hyprlandIsAvailable, plasmaIsAvailable,
      hsig, hctl, hkde]

/-- Witness for backend selection: a concrete environment with an xfce
hint, zero probed tools and no desktop markers yields the
no-supported-desktop error; a hyprland hint with hyprpaper present yields
the Hyprland manager; a plasma hint with qdbus present yields Plasma. -/
theorem backend_selection_witness :
    get_wallpaper_manager ⟨some "xfce", false, false, false⟩ ⟨false, false, false⟩ false
      = .err (.desktopEnv noDesktopMsg)
    ∧ get_wallpaper_manager ⟨some "Hyprland", false, false, false⟩ ⟨true, false, false⟩ false
      = mkHyprlandManager ⟨true, false, false⟩
    ∧ get_wallpaper_manager ⟨some "KDE", false, false, false⟩ ⟨false, false, false⟩ true
      = mkPlasmaManager true :=
  ⟨(backend_selection ⟨some "xfce", false, false, false⟩ ⟨false, false, false⟩ false).2.2.2
      (by decide) rfl rfl rfl rfl rfl,
   (backend_selection ⟨some "Hyprland", false, false, false⟩ ⟨true, false, false⟩ false).1
      (by decide),
   (backend_selection ⟨some "KDE", false, false, false⟩ ⟨false, false, false⟩ true).2.1
      (Or.inl (by decide))⟩

/-- C1: when the folder already contains a file whose name starts with
the date formatted as YYYY-MM-DD, get_image with random false resolving
to that date returns the existing path without issuing a network request,
and download_specific_date for that date returns count 0 without issuing
a network request. -/
theorem skip_if_present :
    ∀ (folder : List String) (d utcToday : Int) (utcHour : Nat) (off : Option Nat)
      (resp : MetaResp) (imgOk : Bool) (pick : Nat) (dateStr : String),
      (∃ x ∈ folder, strStartsWith x (formatYMD d) = true) →
      (getImageTargetDate utcToday utcHour off = d →
        ∃ p, get_local_image_for_date folder d = some p
          ∧ strStartsWith p (formatYMD d) = true
          ∧ get_image folder false off utcToday utcHour resp imgOk pick
              = (.ok (some p), false))
      ∧ (parseYMD dateStr = some d →
        download_specific_date folder dateStr resp imgOk = (.ok 0, false, folder)) := by
  intro folder d utcToday utcHour off resp imgOk pick dateStr hcached
  have hsome : (get_local_image_for_date folder d).isSome = true := by
    unfold get_local_image_for_date
    rw [List.find?_isSome]
    obtain ⟨x, hx, hpx⟩ := hcached
    exact ⟨x, hx, hpx⟩
  obtain ⟨p, hp⟩ := Option.isSome_iff_exists.1 hsome
  have hp' : folder.find? (fun name => strStartsWith name (formatYMD d)) = some p := hp
  constructor
  · intro htarget
    refine ⟨p, hp, ?_, ?_⟩
    · have hps := List.find?_some hp'
      simpa using hps
    · simp only [get_image, Bool.false_eq_true, if_false, htarget, hp]
  · intro hparse
    simp only [download_specific_date, hparse, hsome, if_true]

/-- Witness for skip-if-present at the concrete date 2024-01-10 (day
number 19732) with its file already cached. -/
theorem skip_if_present_witness :
    (∃ p, get_local_image_for_date ["2024-01-10.jpg"] 19732 = some p
      ∧ strStartsWith p (formatYMD 19732) = true
      ∧ get_image ["2024-01-10.jpg"] false none 19732 12 ⟨500, []⟩ false 0
          = (.ok (some p), false))
    ∧ download_specific_date ["2024-01-10.jpg"] "2024-01-10" ⟨500, []⟩ false
        = (.ok 0, false, ["2024-01-10.jpg"]) :=
  ⟨(skip_if_present ["2024-01-10.jpg"] 19732 19732 12 none ⟨500, []⟩ false 0
      "2024-01-10" (by decide)).1 (by decide),
   (skip_if_present ["2024-01-10.jpg"] 19732 19732 12 none ⟨500, []⟩ false 0
      "2024-01-10" (by decide)).2 (by decide)⟩

/-- The descending loop depends on its start date and index offset only
through their difference. -/
theorem rangeGo_shift (resp : Int → MetaResp) (imgOk : Int → Bool) :
    ∀ (k : Nat) (start start' : Int) (idx idx' : Nat) (fld : List String),
      start - (idx : Int) = start' - (idx' : Int) →
      rangeGo resp imgOk start fld idx k = rangeGo resp imgOk start' fld idx' k := by
  intro k
  induction k with
  | zero =>
    intro start start' idx idx' fld h
    rfl
  | succ k ih =>
    intro start start' idx idx' fld h
    have h1 : start - ((idx : Int) + 1) = start' - ((idx' : Int) + 1) := by omega
    have h1' : start - ((idx + 1 : Nat) : Int) = start' - ((idx' + 1 : Nat) : Int) := by
      push_cast
      omega
    have ih' := fun fld => ih start start' (idx + 1) (idx' + 1) fld h1'
    rw [rangeGo, rangeGo, h]
    simp only [ih']


/-- Behaviour of the descending range loop. -/
theorem rangeGo_desc_spec (resp : Int → MetaResp) (imgOk : Int → Bool) (f0 : List String) :
    ∀ (k : Nat) (b : Int) (fld : List String),
      (∀ x : Int, b - k < x → x ≤ b →
        get_local_image_for_date fld x = get_local_image_for_date f0 x) →
      (∀ x : Int, b - k < x → x ≤ b → (dlAt resp imgOk x).1 ≠ .panics) →
      (∀ x y : Int, b - k < x → x ≤ b → b - k < y → y ≤ b →
        ∀ w ∈ (dlAt resp imgOk x).2, strStartsWith w (formatYMD y) = true → x = y) →
      (rangeGo resp imgOk b fld 0 k).attempts
          = (List.range k).map (fun t : Nat => b - (t : Int))
      ∧ (rangeGo resp imgOk b fld 0 k).net
          = ((List.range k).filter
              (fun t : Nat => !(get_local_image_for_date f0 (b - (t : Int))).isSome)).map
              (fun t : Nat => b - (t : Int))
      ∧ (rangeGo resp imgOk b fld 0 k).result
          = .ok ((List.range k).countP
              (fun t : Nat => !(get_local_image_for_date f0 (b - (t : Int))).isSome
                && isNewDownload (dlAt resp imgOk (b - (t : Int))))) := by
  intro k
  induction k with
  | zero =>
    intro b fld _ _ _
    exact ⟨rfl, rfl, rfl⟩
  | succ k ih =>
    intro b fld Hf Hp Hc
    have h00 : get_local_image_for_date fld b = get_local_image_for_date f0 b := by
      refine Hf b ?_ le_rfl
      push_cast
      omega
    have hshift : ∀ fld', rangeGo resp imgOk b fld' 1 k = rangeGo resp imgOk (b - 1) fld' 0 k := by
      intro fld'
      refine rangeGo_shift resp imgOk k b (b - 1) 1 0 fld' ?_
      push_cast
      ring
    have Hp' : ∀ x : Int, (b - 1) - k < x → x ≤ b - 1 → (dlAt resp imgOk x).1 ≠ .panics := by
      intro x h1 h2
      refine Hp x ?_ (by omega)
      push_cast
      omega
    have Hc' : ∀ x y : Int, (b - 1) - k < x → x ≤ b - 1 → (b - 1) - k < y → y ≤ b - 1 →
        ∀ w ∈ (dlAt resp imgOk x).2, strStartsWith w (formatYMD y) = true → x = y := by
      intro x y h1 h2 h3 h4 w hw hsw
      refine Hc x y ?_ (by omega) ?_ (by omega) w hw hsw <;> push_cast <;> omega
    have harg : ∀ t : Nat, b - ((t : Int) + 1) = (b - 1) - (t : Int) := by
      intro t
      ring
    have hmap : (List.range (k + 1)).map (fun t : Nat => b - (t : Int))
        = b :: (List.range k).map (fun t : Nat => (b - 1) - (t : Int)) := by
      rw [map_range_succ]
      congr 1
      · simp
      · refine List.map_congr_left (fun t _ => ?_)
        push_cast
        ring
    by_cases hc : (get_local_image_for_date f0 b).isSome = true
    · -- date b already cached: skipped, no network
      have hcf : (get_local_image_for_date fld b).isSome = true := by rw [h00]; exact hc
      have hstep : rangeGo resp imgOk b fld 0 (k + 1)
          = ⟨(rangeGo resp imgOk (b - 1) fld 0 k).result,
             b :: (rangeGo resp imgOk (b - 1) fld 0 k).attempts,
             (rangeGo resp imgOk (b - 1) fld 0 k).net,
             (rangeGo resp imgOk (b - 1) fld 0 k).folder⟩ := by
        rw [rangeGo]
        simp [hcf, hshift fld]
      obtain ⟨ha, hn, hr⟩ := ih (b - 1) fld
        (fun x h1 h2 => Hf x (by push_cast; omega) (by omega)) Hp' Hc'
      refine ⟨?_, ?_, ?_⟩
      · rw [hstep, hmap]
        simp [ha]
      · rw [hstep]
        simp only [hn]
        rw [filter_map_range_succ]
        simp only [Nat.cast_zero, sub_zero, hc, Bool.not_true, if_false, List.nil_append]
        push_cast
        simp only [harg]
        simp
      · rw [hstep]
        simp only [hr, LoopOut.result]
        rw [countP_range_succ]
        simp only [Nat.cast_zero, sub_zero, hc, Bool.not_true, Bool.false_and, if_false]
        push_cast
        simp only [harg]
        simp
    · -- date b not cached: network attempt
      have hc0 : (get_local_image_for_date f0 b).isSome = false := by
        revert hc
        cases (get_local_image_for_date f0 b).isSome <;> simp
      have hcf : (get_local_image_for_date fld b).isSome = false := by rw [h00]; exact hc0
      rcases hdl : dlAt resp imgOk b with ⟨r1, w⟩
      have hwf : ∀ x : Int, (b - 1) - k < x → x ≤ b - 1 →
          get_local_image_for_date (fld ++ w) x = get_local_image_for_date f0 x := by
        intro x h1 h2
        have hnone : w.find? (fun name => strStartsWith name (formatYMD x)) = none := by
          rw [List.find?_eq_none]
          intro nm hnm hp
          have hx : b = x := by
            refine Hc b x ?_ le_rfl ?_ (by omega) nm ?_ (by simpa using hp)
            · push_cast
              omega
            · push_cast
              omega
            · rw [hdl]
              exact hnm
          omega
        unfold get_local_image_for_date
        rw [List.find?_append, hnone, Option.or_none]
        exact Hf x (by push_cast; omega) (by omega)
      cases r1 with
      | panics =>
        exact absurd (by rw [hdl]) (Hp b (by push_cast; omega) le_rfl)
      | ok a =>
        cases a with
        | some s =>
          have hstep : rangeGo resp imgOk b fld 0 (k + 1)
              = ⟨(rangeGo resp imgOk (b - 1) (fld ++ w) 0 k).result.bumpCount,
                 b :: (rangeGo resp imgOk (b - 1) (fld ++ w) 0 k).attempts,
                 b :: (rangeGo resp imgOk (b - 1) (fld ++ w) 0 k).net,
                 (rangeGo resp imgOk (b - 1) (fld ++ w) 0 k).folder⟩ := by
            rw [rangeGo]
            simp [hcf, hdl, hshift (fld ++ w)]
          obtain ⟨ha, hn, hr⟩ := ih (b - 1) (fld ++ w) hwf Hp' Hc'
          have hnew : isNewDownload (dlAt resp imgOk b) = true := by
            rw [hdl]
            rfl
          refine ⟨?_, ?_, ?_⟩
          · rw [hstep, hmap]
            simp [ha]
          · rw [hstep]
            simp only [hn, LoopOut.net]
            rw [filter_map_range_succ]
            simp only [Nat.cast_zero, sub_zero, hc0, Bool.not_false, if_true]
            push_cast
            simp only [harg]
            rfl
          · rw [hstep]
            simp only [hr, LoopOut.result, RunRes.bumpCount]
            rw [countP_range_succ]
            simp only [Nat.cast_zero, sub_zero, hc0, Bool.not_false, hnew, Bool.true_and,
              if_true]
            push_cast
            simp only [harg]
        | none =>
          have hstep : rangeGo resp imgOk b fld 0 (k + 1)
              = ⟨(rangeGo resp imgOk (b - 1) (fld ++ w) 0 k).result,
                 b :: (rangeGo resp imgOk (b - 1) (fld ++ w) 0 k).attempts,
                 b :: (rangeGo resp imgOk (b - 1) (fld ++ w) 0 k).net,
                 (rangeGo resp imgOk (b - 1) (fld ++ w) 0 k).folder⟩ := by
            rw [rangeGo]
            simp [hcf, hdl, hshift (fld ++ w)]
          obtain ⟨ha, hn, hr⟩ := ih (b - 1) (fld ++ w) hwf Hp' Hc'
          have hnew : isNewDownload (dlAt resp imgOk b) = false := by
            rw [hdl]
            rfl
          refine ⟨?_, ?_, ?_⟩
          · rw [hstep, hmap]
            simp [ha]
          · rw [hstep]
            simp only [hn, LoopOut.net]
            rw [filter_map_range_succ]
            simp only [Nat.cast_zero, sub_zero, hc0, Bool.not_false, if_true]
            push_cast
            simp only [harg]
            rfl
          · rw [hstep]
            simp only [hr, LoopOut.result]
            rw [countP_range_succ]
            simp only [Nat.cast_zero, sub_zero, hc0, Bool.not_false, hnew, Bool.and_false,
              if_false]
            push_cast
            simp only [harg]
            simp
      | err e =>
        have hstep : rangeGo resp imgOk b fld 0 (k + 1)
            = ⟨(rangeGo resp imgOk (b - 1) (fld ++ w) 0 k).result,
               b :: (rangeGo resp imgOk (b - 1) (fld ++ w) 0 k).attempts,
               b :: (rangeGo resp imgOk (b - 1) (fld ++ w) 0 k).net,
               (rangeGo resp imgOk (b - 1) (fld ++ w) 0 k).folder⟩ := by
          rw [rangeGo]
          simp [hcf, hdl, hshift (fld ++ w)]
        obtain ⟨ha, hn, hr⟩ := ih (b - 1) (fld ++ w) hwf Hp' Hc'
        have hnew : isNewDownload (dlAt resp imgOk b) = false := by
          rw [hdl]
          rfl
        refine ⟨?_, ?_, ?_⟩
        · rw [hstep, hmap]
          simp [ha]
        · rw [hstep]
          simp only [hn, LoopOut.net]
          rw [filter_map_range_succ]
          simp only [Nat.cast_zero, sub_zero, hc0, Bool.not_false, if_true]
          push_cast
          simp only [harg]
          rfl
        · rw [hstep]
          simp only [hr, LoopOut.result]
          rw [countP_range_succ]
          simp only [Nat.cast_zero, sub_zero, hc0, Bool.not_false, hnew, Bool.and_false,
            if_false]
          push_cast
          simp only [harg]
          simp

/-- C5: download_range attempts exactly the days consecutive dates from
the anchor date going backward in descending order; cached dates are
skipped without a network request; an individual date's fetch failure is
caught and never aborts the remaining dates; and the returned value is
the count of newly downloaded images. -/
theorem range_failure_isolation :
    ∀ (resp : Int → MetaResp) (imgOk : Int → Bool) (folder : List String)
      (days : Nat) (localToday : Int) (utcHour : Nat),
      (∀ t : Nat, t < days →
        (dlAt resp imgOk (downloadRangeAnchor localToday utcHour - (t : Int))).1 ≠ .panics) →
      (∀ t : Nat, t < days → ∀ u : Nat, u < days →
        ∀ w ∈ (dlAt resp imgOk (downloadRangeAnchor localToday utcHour - (t : Int))).2,
          strStartsWith w (formatYMD (downloadRangeAnchor localToday utcHour - (u : Int)))
            = true → t = u) →
      (download_range resp imgOk folder days localToday utcHour).attempts
          = (List.range days).map
              (fun t : Nat => downloadRangeAnchor localToday utcHour - (t : Int))
      ∧ (download_range resp imgOk folder days localToday utcHour).net
          = ((List.range days).filter
              (fun t : Nat => !(get_local_image_for_date folder
                (downloadRangeAnchor localToday utcHour - (t : Int))).isSome)).map
              (fun t : Nat => downloadRangeAnchor localToday utcHour - (t : Int))
      ∧ (download_range resp imgOk folder days localToday utcHour).result
          = .ok ((List.range days).countP
              (fun t : Nat => !(get_local_image_for_date folder
                  (downloadRangeAnchor localToday utcHour - (t : Int))).isSome
                && isNewDownload (dlAt resp imgOk
                  (downloadRangeAnchor localToday utcHour - (t : Int))))) := by
  intro resp imgOk folder days localToday utcHour Hpn Hcn
  have Hp : ∀ x : Int, downloadRangeAnchor localToday utcHour - days < x →
      x ≤ downloadRangeAnchor localToday utcHour → (dlAt resp imgOk x).1 ≠ .panics := by
    intro x h1 h2
    have hx : downloadRangeAnchor localToday utcHour
        - (((downloadRangeAnchor localToday utcHour - x).toNat : Nat) : Int) = x := by
      omega
    have ht : (downloadRangeAnchor localToday utcHour - x).toNat < days := by omega
    have := Hpn (downloadRangeAnchor localToday utcHour - x).toNat ht
    rwa [hx] at this
  have Hc : ∀ x y : Int, downloadRangeAnchor localToday utcHour - days < x →
      x ≤ downloadRangeAnchor localToday utcHour →
      downloadRangeAnchor localToday utcHour - days < y →
      y ≤ downloadRangeAnchor localToday utcHour →
      ∀ w ∈ (dlAt resp imgOk x).2, strStartsWith w (formatYMD y) = true → x = y := by
    intro x y h1 h2 h3 h4 w hw hsw
    have hx : downloadRangeAnchor localToday utcHour
        - (((downloadRangeAnchor localToday utcHour - x).toNat : Nat) : Int) = x := by
      omega
    have hy : downloadRangeAnchor localToday utcHour
        - (((downloadRangeAnchor localToday utcHour - y).toNat : Nat) : Int) = y := by
      omega
    have := Hcn (downloadRangeAnchor localToday utcHour - x).toNat (by omega)
      (downloadRangeAnchor localToday utcHour - y).toNat (by omega) w
      (by rwa [hx]) (by rwa [hy])
    omega
  exact rangeGo_desc_spec resp imgOk folder days
    (downloadRangeAnchor localToday utcHour) folder (fun x _ _ => rfl) Hp Hc


/-- Witness for the range walk: anchor 2024-01-10 (day 19732), two days,
2024-01-09 already cached; attempts run descending, only the uncached
date hits the network, and the count is the single new download. -/
theorem range_failure_isolation_witness :
    (download_range
        (fun d => ⟨200, [⟨formatYMD d, "e", none, some "https://x/a.jpg", "t", "image"⟩]⟩)
        (fun _ => true) ["2024-01-09.jpg"] 2 19732 12).attempts = [19732, 19731]
    ∧ (download_range
        (fun d => ⟨200, [⟨formatYMD d, "e", none, some "https://x/a.jpg", "t", "image"⟩]⟩)
        (fun _ => true) ["2024-01-09.jpg"] 2 19732 12).net = [19732]
    ∧ (download_range
        (fun d => ⟨200, [⟨formatYMD d, "e", none, some "https://x/a.jpg", "t", "image"⟩]⟩)
        (fun _ => true) ["2024-01-09.jpg"] 2 19732 12).result = .ok 1 := by
  obtain ⟨h1, h2, h3⟩ := range_failure_isolation
    (fun d => ⟨200, [⟨formatYMD d, "e", none, some "https://x/a.jpg", "t", "image"⟩]⟩)
    (fun _ => true) ["2024-01-09.jpg"] 2 19732 12 (by decide) (by decide)
  refine ⟨?_, ?_, ?_⟩
  · rw [h1]
    decide
  · rw [h2]
    decide
  · rw [h3]
    decide

/-- Behaviour of the ascending date-span loop: under a no-panic oracle
whose written file names never collide with other dates in the window,
the loop visits the interval dates in ascending order, requests the
network exactly for the initially-uncached ones, and returns the count of
new downloads. -/
theorem spanGo_asc_spec (resp : Int → MetaResp) (imgOk : Int → Bool) (f0 : List String)
    (endD : Int) :
    ∀ (n : Nat) (current : Int) (fld : List String),
      (endD + 1 - current).toNat = n →
      (∀ x : Int, current ≤ x → x ≤ endD →
        get_local_image_for_date fld x = get_local_image_for_date f0 x) →
      (∀ x : Int, current ≤ x → x ≤ endD → (dlAt resp imgOk x).1 ≠ .panics) →
      (∀ x y : Int, current ≤ x → x ≤ endD → current ≤ y → y ≤ endD →
        ∀ w ∈ (dlAt resp imgOk x).2, strStartsWith w (formatYMD y) = true → x = y) →
      (spanGo resp imgOk endD current fld).attempts
          = (List.range n).map (fun t : Nat => current + (t : Int))
      ∧ (spanGo resp imgOk endD current fld).net
          = ((List.range n).filter
              (fun t : Nat => !(get_local_image_for_date f0 (current + (t : Int))).isSome)).map
              (fun t : Nat => current + (t : Int))
      ∧ (spanGo resp imgOk endD current fld).result
          = .ok ((List.range n).countP
              (fun t : Nat => !(get_local_image_for_date f0 (current + (t : Int))).isSome
                && isNewDownload (dlAt resp imgOk (current + (t : Int))))) := by
  intro n
  induction n with
  | zero =>
    intro current fld hn Hf Hp Hc
    have hgt : ¬ current ≤ endD := by omega
    rw [spanGo]
    simp [hgt]
  | succ n ih =>
    intro current fld hn Hf Hp Hc
    have hle : current ≤ endD := by omega
    have hn' : (endD + 1 - (current + 1)).toNat = n := by omega
    have h00 : get_local_image_for_date fld current = get_local_image_for_date f0 current :=
      Hf current le_rfl hle
    have Hp' : ∀ x : Int, current + 1 ≤ x → x ≤ endD → (dlAt resp imgOk x).1 ≠ .panics :=
      fun x h1 h2 => Hp x (by omega) h2
    have Hc' : ∀ x y : Int, current + 1 ≤ x → x ≤ endD → current + 1 ≤ y → y ≤ endD →
        ∀ w ∈ (dlAt resp imgOk x).2, strStartsWith w (formatYMD y) = true → x = y :=
      fun x y h1 h2 h3 h4 w hw hsw => Hc x y (by omega) h2 (by omega) h4 w hw hsw
    have harg : ∀ t : Nat, current + ((t : Int) + 1) = (current + 1) + (t : Int) := by
      intro t
      ring
    have hmap : (List.range (n + 1)).map (fun t : Nat => current + (t : Int))
        = current :: (List.range n).map (fun t : Nat => (current + 1) + (t : Int)) := by
      rw [map_range_succ]
      congr 1
      · simp
      · refine List.map_congr_left (fun t _ => ?_)
        push_cast
        ring
    by_cases hc : (get_local_image_for_date f0 current).isSome = true
    · -- the current date is already cached: skipped, no network
      have hcf : (get_local_image_for_date fld current).isSome = true := by rw [h00]; exact hc
      have hstep : spanGo resp imgOk endD current fld
          = ⟨(spanGo resp imgOk endD (current + 1) fld).result,
             current :: (spanGo resp imgOk endD (current + 1) fld).attempts,
             (spanGo resp imgOk endD (current + 1) fld).net,
             (spanGo resp imgOk endD (current + 1) fld).folder⟩ := by
        rw [spanGo]
        simp [hle, hcf]
      obtain ⟨ha, hn2, hr⟩ := ih (current + 1) fld hn'
        (fun x h1 h2 => Hf x (by omega) h2) Hp' Hc'
      refine ⟨?_, ?_, ?_⟩
      · rw [hstep, hmap]
        simp [ha]
      · rw [hstep]
        simp only [hn2, LoopOut.net]
        rw [filter_map_range_succ]
        simp only [Nat.cast_zero, add_zero, hc, Bool.not_true, if_false, List.nil_append]
        push_cast
        simp only [harg]
        simp
      · rw [hstep]
        simp only [hr, LoopOut.result]
        rw [countP_range_succ]
        simp only [Nat.cast_zero, add_zero, hc, Bool.not_true, Bool.false_and, if_false]
        push_cast
        simp only [harg]
        simp
    · -- the current date is not cached: network attempt
      have hc0 : (get_local_image_for_date f0 current).isSome = false := by
        revert hc
        cases (get_local_image_for_date f0 current).isSome <;> simp
      have hcf : (get_local_image_for_date fld current).isSome = false := by rw [h00]; exact hc0
      rcases hdl : dlAt resp imgOk current with ⟨r1, w⟩
      have hwf : ∀ x : Int, current + 1 ≤ x → x ≤ endD →
          get_local_image_for_date (fld ++ w) x = get_local_image_for_date f0 x := by
        intro x h1 h2
        have hnone : w.find? (fun name => strStartsWith name (formatYMD x)) = none := by
          rw [List.find?_eq_none]
          intro nm hnm hp
          have hx : current = x := by
            refine Hc current x le_rfl hle (by omega) h2 nm ?_ (by simpa using hp)
            rw [hdl]
            exact hnm
          omega
        unfold get_local_image_for_date
        rw [List.find?_append, hnone, Option.or_none]
        exact Hf x (by omega) h2
      cases r1 with
      | panics =>
        exact absurd (by rw [hdl]) (Hp current le_rfl hle)
      | ok a =>
        cases a with
        | some s =>
          have hstep : spanGo resp imgOk endD current fld
              = ⟨(spanGo resp imgOk endD (current + 1) (fld ++ w)).result.bumpCount,
                 current :: (spanGo resp imgOk endD (current + 1) (fld ++ w)).attempts,
                 current :: (spanGo resp imgOk endD (current + 1) (fld ++ w)).net,
                 (spanGo resp imgOk endD (current + 1) (fld ++ w)).folder⟩ := by
            rw [spanGo]
            simp [hle, hcf, hdl]
          obtain ⟨ha, hn2, hr⟩ := ih (current + 1) (fld ++ w) hn' hwf Hp' Hc'
          have hnew : isNewDownload (dlAt resp imgOk current) = true := by
            rw [hdl]
            rfl
          refine ⟨?_, ?_, ?_⟩
          · rw [hstep, hmap]
            simp [ha]
          · rw [hstep]
            simp only [hn2, LoopOut.net]
            rw [filter_map_range_succ]
            simp only [Nat.cast_zero, add_zero, hc0, Bool.not_false, if_true]
            push_cast
            simp only [harg]
            rfl
          · rw [hstep]
            simp only [hr, LoopOut.result, RunRes.bumpCount]
            rw [countP_range_succ]
            simp only [Nat.cast_zero, add_zero, hc0, Bool.not_false, hnew, Bool.true_and,
              if_true]
            push_cast
            simp only [harg]
        | none =>
          have hstep : spanGo resp imgOk endD current fld
              = ⟨(spanGo resp imgOk endD (current + 1) (fld ++ w)).result,
                 current :: (spanGo resp imgOk endD (current + 1) (fld ++ w)).attempts,
                 current :: (spanGo resp imgOk endD (current + 1) (fld ++ w)).net,
                 (spanGo resp imgOk endD (current + 1) (fld ++ w)).folder⟩ := by
            rw [spanGo]
            simp [hle, hcf, hdl]
          obtain ⟨ha, hn2, hr⟩ := ih (current + 1) (fld ++ w) hn' hwf Hp' Hc'
          have hnew : isNewDownload (dlAt resp imgOk current) = false := by
            rw [hdl]
            rfl
          refine ⟨?_, ?_, ?_⟩
          · rw [hstep, hmap]
            simp [ha]
          · rw [hstep]
            simp only [hn2, LoopOut.net]
            rw [filter_map_range_succ]
            simp only [Nat.cast_zero, add_zero, hc0, Bool.not_false, if_true]
            push_cast
            simp only [harg]
            rfl
          · rw [hstep]
            simp only [hr, LoopOut.result]
            rw [countP_range_succ]
            simp only [Nat.cast_zero, add_zero, hc0, Bool.not_false, hnew, Bool.and_false,
              if_false]
            push_cast
            simp only [harg]
            simp
      | err e =>
        have hstep : spanGo resp imgOk endD current fld
            = ⟨(spanGo resp imgOk endD (current + 1) (fld ++ w)).result,
               current :: (spanGo resp imgOk endD (current + 1) (fld ++ w)).attempts,
               current :: (spanGo resp imgOk endD (current + 1) (fld ++ w)).net,
               (spanGo resp imgOk endD (current + 1) (fld ++ w)).folder⟩ := by
          rw [spanGo]
          simp [hle, hcf, hdl]
        obtain ⟨ha, hn2, hr⟩ := ih (current + 1) (fld ++ w) hn' hwf Hp' Hc'
        have hnew : isNewDownload (dlAt resp imgOk current) = false := by
          rw [hdl]
          rfl
        refine ⟨?_, ?_, ?_⟩
        · rw [hstep, hmap]
          simp [ha]
        · rw [hstep]
          simp only [hn2, LoopOut.net]
          rw [filter_map_range_succ]
          simp only [Nat.cast_zero, add_zero, hc0, Bool.not_false, if_true]
          push_cast
          simp only [harg]
          rfl
        · rw [hstep]
          simp only [hr, LoopOut.result]
          rw [countP_range_succ]
          simp only [Nat.cast_zero, add_zero, hc0, Bool.not_false, hnew, Bool.and_false,
            if_false]
          push_cast
          simp only [harg]
          simp

/-- C4: download_date_range signals the invalid-date error when either
string fails to parse as YYYY-MM-DD, signals the invalid-range error
before any filesystem or network I/O when the parsed start is after the
end, and otherwise visits exactly end - start + 1 calendar dates in
ascending order, skipping cached dates and returning the count of newly
downloaded images. -/
theorem date_span_contract :
    ∀ (resp : Int → MetaResp) (imgOk : Int → Bool) (folder : List String)
      (startStr endStr : String) (s e : Int),
      (parseYMD startStr = none →
        download_date_range resp imgOk folder startStr endStr
          = ⟨.err (.api (invalidStartMsg startStr)), [], [], folder⟩)
      ∧ (parseYMD startStr = some s → parseYMD endStr = none →
        download_date_range resp imgOk folder startStr endStr
          = ⟨.err (.api (invalidEndMsg endStr)), [], [], folder⟩)
      ∧ (parseYMD startStr = some s → parseYMD endStr = some e → s > e →
        download_date_range resp imgOk folder startStr endStr
          = ⟨.err (.api invalidRangeMsg), [], [], folder⟩)
      ∧ (parseYMD startStr = some s → parseYMD endStr = some e → s ≤ e →
        (∀ t : Nat, t < (e + 1 - s).toNat →
          (dlAt resp imgOk (s + (t : Int))).1 ≠ .panics) →
        (∀ t : Nat, t < (e + 1 - s).toNat → ∀ u : Nat, u < (e + 1 - s).toNat →
          ∀ w ∈ (dlAt resp imgOk (s + (t : Int))).2,
            strStartsWith w (formatYMD (s + (u : Int))) = true → t = u) →
        (download_date_range resp imgOk folder startStr endStr).attempts
            = (List.range (e + 1 - s).toNat).map (fun t : Nat => s + (t : Int))
        ∧ (download_date_range resp imgOk folder startStr endStr).net
            = ((List.range (e + 1 - s).toNat).filter
                (fun t : Nat =>
                  !(get_local_image_for_date folder (s + (t : Int))).isSome)).map
                (fun t : Nat => s + (t : Int))
        ∧ (download_date_range resp imgOk folder startStr endStr).result
            = .ok ((List.range (e + 1 - s).toNat).countP
                (fun t : Nat =>
                  !(get_local_image_for_date folder (s + (t : Int))).isSome
                    && isNewDownload (dlAt resp imgOk (s + (t : Int)))))) := by
  intro resp imgOk folder startStr endStr s e
  refine ⟨?_, ?_, ?_, ?_⟩
  · intro h
    simp [download_date_range, h]
  · intro h1 h2
    simp [download_date_range, h1, h2]
  · intro h1 h2 h3
    simp only [download_date_range, h1, h2]
    rw [if_pos h3]
  · intro h1 h2 h3 Hpn Hcn
    have hrun : download_date_range resp imgOk folder startStr endStr
        = spanGo resp imgOk e s folder := by
      simp only [download_date_range, h1, h2]
      rw [if_neg (by omega)]
    have Hp : ∀ x : Int, s ≤ x → x ≤ e → (dlAt resp imgOk x).1 ≠ .panics := by
      intro x hx1 hx2
      have hx : s + (((x - s).toNat : Nat) : Int) = x := by omega
      have := Hpn (x - s).toNat (by omega)
      rwa [hx] at this
    have Hc : ∀ x y : Int, s ≤ x → x ≤ e → s ≤ y → y ≤ e →
        ∀ w ∈ (dlAt resp imgOk x).2, strStartsWith w (formatYMD y) = true → x = y := by
      intro x y hx1 hx2 hy1 hy2 w hw hsw
      have hx : s + (((x - s).toNat : Nat) : Int) = x := by omega
      have hy : s + (((y - s).toNat : Nat) : Int) = y := by omega
      have := Hcn (x - s).toNat (by omega) (y - s).toNat (by omega) w
        (by rwa [hx]) (by rwa [hy])
      omega
    rw [hrun]
    exact spanGo_asc_spec resp imgOk folder e (e + 1 - s).toNat s folder rfl
      (fun x _ _ => rfl) Hp Hc


/-- Witness for the date-span contract: an unparsable start date signals
the invalid-date error; an inverted range signals the invalid-range error
with no I/O; the span 2024-01-09 to 2024-01-10 with the first date
cached visits both dates ascending, hits the network once and downloads
one image; and the chrono-lenient spellings 2024-1-9 with a
leading-whitespace end date parse and run the same span rather than
signalling an invalid date. -/
theorem date_span_contract_witness :
    download_date_range
        (fun d => ⟨200, [⟨formatYMD d, "e", none, some "https://x/a.jpg", "t", "image"⟩]⟩)
        (fun _ => true) ["2024-01-09.jpg"] "2024-13-01" "2024-01-10"
      = ⟨.err (.api (invalidStartMsg "2024-13-01")), [], [], ["2024-01-09.jpg"]⟩
    ∧ download_date_range
        (fun d => ⟨200, [⟨formatYMD d, "e", none, some "https://x/a.jpg", "t", "image"⟩]⟩)
        (fun _ => true) ["2024-01-09.jpg"] "2024-01-10" "2024-01-09"
      = ⟨.err (.api invalidRangeMsg), [], [], ["2024-01-09.jpg"]⟩
    ∧ (download_date_range
        (fun d => ⟨200, [⟨formatYMD d, "e", none, some "https://x/a.jpg", "t", "image"⟩]⟩)
        (fun _ => true) ["2024-01-09.jpg"] "2024-01-09" "2024-01-10").attempts
      = [19731, 19732]
    ∧ (download_date_range
        (fun d => ⟨200, [⟨formatYMD d, "e", none, some "https://x/a.jpg", "t", "image"⟩]⟩)
        (fun _ => true) ["2024-01-09.jpg"] "2024-01-09" "2024-01-10").net
      = [19732]
    ∧ (download_date_range
        (fun d => ⟨200, [⟨formatYMD d, "e", none, some "https://x/a.jpg", "t", "image"⟩]⟩)
        (fun _ => true) ["2024-01-09.jpg"] "2024-01-09" "2024-01-10").result
      = .ok 1
    ∧ (download_date_range
        (fun d => ⟨200, [⟨formatYMD d, "e", none, some "https://x/a.jpg", "t", "image"⟩]⟩)
        (fun _ => true) ["2024-01-09.jpg"] "2024-1-9" " 2024-01-10").result
      = .ok 1 := by
  have hbad := (date_span_contract
    (fun d => ⟨200, [⟨formatYMD d, "e", none, some "https://x/a.jpg", "t", "image"⟩]⟩)
    (fun _ => true) ["2024-01-09.jpg"] "2024-13-01" "2024-01-10" 0 0).1 (by decide)
  have hinv := (date_span_contract
    (fun d => ⟨200, [⟨formatYMD d, "e", none, some "https://x/a.jpg", "t", "image"⟩]⟩)
    (fun _ => true) ["2024-01-09.jpg"] "2024-01-10" "2024-01-09" 19732 19731).2.2.1
    (by decide) (by decide) (by decide)
  obtain ⟨h1, h2, h3⟩ := (date_span_contract
    (fun d => ⟨200, [⟨formatYMD d, "e", none, some "https://x/a.jpg", "t", "image"⟩]⟩)
    (fun _ => true) ["2024-01-09.jpg"] "2024-01-09" "2024-01-10" 19731 19732).2.2.2
    (by decide) (by decide) (by decide) (by decide) (by decide)
  obtain ⟨_, _, h4⟩ := (date_span_contract
    (fun d => ⟨200, [⟨formatYMD d, "e", none, some "https://x/a.jpg", "t", "image"⟩]⟩)
    (fun _ => true) ["2024-01-09.jpg"] "2024-1-9" " 2024-01-10" 19731 19732).2.2.2
    (by decide) (by decide) (by decide) (by decide) (by decide)
  refine ⟨hbad, hinv, ?_, ?_, ?_, ?_⟩
  · rw [h1]
    decide
  · rw [h2]
    decide
  · rw [h3]
    decide
  · rw [h4]
    decide

/-- Witness for the ordered fallback: with all three tools present, the
hyprpaper attempt failing and the swww attempt succeeding, set_wallpaper
succeeds; with every attempt failing it returns the backend-failure
error. -/
theorem hyprland_set_wallpaper_fallback_witness :
    hyprSetWallpaper ⟨true, true, true⟩ .failExit .success false = .ok ()
    ∧ hyprSetWallpaper ⟨true, true, true⟩ .failExit .failExit false
        = .error (.desktopEnv hyprSetFailMsg) :=
  ⟨((hyprland_set_wallpaper_fallback ⟨true, true, true⟩ .failExit .success false).2.2).2
      (by decide),
   ((hyprland_set_wallpaper_fallback ⟨true, true, true⟩ .failExit .failExit false).2.1).2
      (by decide)⟩
